import Mathlib

/- Verification of the SciELO JATS XML → NDJSON converter
   (scielo_xml_to_json/scielo_xml_to_json.py).

   JSON-like Python values are modelled by `Json`, parsed XML element trees
   (lxml `_Element`) by `Elem`.  Python builtins the converter relies on
   (`str.lower`, `str.strip`, `str.split`, `re.split`, the e-mail regex of
   `_extract_email_from_text`, truthiness, `json.dumps`) are modelled
   explicitly below; each model is ASCII-faithful, which covers every use
   the converter makes of them.  Definitions keep the source's names. -/

/-! ### JSON-like Python values -/

inductive Json where
  | null
  | b (v : Bool)
  | i (v : Int)
  | s (v : String)
  | arr (items : List Json)
  | obj (fields : List (String × Json))

/- Python truthiness (`if x:`) on JSON-like values. -/
def pyTruthy : Json → Bool
  | .null => false
  | .b v => v
  | .i v => v != 0
  | .s v => v != ""
  | .arr xs => !xs.isEmpty
  | .obj kvs => !kvs.isEmpty

/- Python truthiness on `Optional[str]` (`None` and `""` are falsy). -/
def tOpt : Option String → Bool
  | some v => v != ""
  | none => false

/- Python `a or b` on `Optional[str]`. -/
def pyOr (a b : Option String) : Option String :=
  if tOpt a then a else b

/- Embeds an `Optional[str]` as a JSON-like value. -/
def jOptStr : Option String → Json
  | some v => .s v
  | none => .null

/- Python `[x for x in l if x]` on a list of `Optional[str]`. -/
def pyFilterStr (l : List (Option String)) : List String :=
  l.filterMap fun o =>
    match o with
    | some v => if v = "" then none else some v
    | none => none

/- Dict field access: `d.get(k)` on a JSON object (first binding wins). -/
def jsonLookup (j : Json) (k : String) : Option Json :=
  match j with
  | .obj kvs => kvs.lookup k
  | _ => none

/- `d.get(k)` when the stored value is a string or absent/None
   (the shape every call site below guarantees). -/
def jsonGetStr (j : Json) (k : String) : Option String :=
  match jsonLookup j k with
  | some (.s v) => some v
  | _ => none

/-! ### Python string builtins (ASCII-faithful models) -/

/- Python whitespace (`str.split()` / `\s`), ASCII part. -/
def isPyWs (c : Char) : Bool :=
  c = ' ' || c = '\t' || c = '\n' || c = '\r' || c = '\x0b' || c = '\x0c'

/- `str.strip()`. -/
def pyStrip (s : String) : String :=
  String.mk (((s.data.dropWhile isPyWs).reverse.dropWhile isPyWs).reverse)

/- `str.lower()` on one character (ASCII range). -/
def pyLowerChar (c : Char) : Char :=
  if 'A' ≤ c ∧ c ≤ 'Z' then Char.ofNat (c.toNat + 32) else c

/- `str.lower()`. -/
def pyLower (s : String) : String :=
  String.mk (s.data.map pyLowerChar)

/- Splitting on maximal runs of separator characters, keeping boundary empty
   pieces, exactly like `re.split("[sep]+", s)` (and `str.split()` once the
   empty pieces are filtered out). -/
def splitRunsGo (p : Char → Bool) (acc : List Char) (prevSep : Bool) :
    List Char → List (List Char)
  | [] => [acc.reverse]
  | c :: rest =>
    if p c then
      if prevSep then splitRunsGo p acc true rest
      else acc.reverse :: splitRunsGo p [] true rest
    else splitRunsGo p (c :: acc) false rest

def splitRuns (p : Char → Bool) (s : String) : List String :=
  (splitRunsGo p [] false s.data).map String.mk

/- `" ".join(" ".join(parts).split()).strip()`: whitespace-collapsed join. -/
def collapseWs (s : String) : String :=
  String.intercalate " " ((splitRuns isPyWs s).filter (fun t => t != ""))

/- The separator class of `re.split(r"[\s,;]+", chunk)`. -/
def isSepChar (c : Char) : Bool :=
  isPyWs c || c = ',' || c = ';'

/- `re.split(r"[\s,;]+", chunk)`. -/
def pySplitSeps (s : String) : List String :=
  splitRuns isSepChar s

/- First segment of `s.split("-")`. -/
def takeUntilChar (c : Char) (cs : List Char) : List Char :=
  cs.takeWhile (fun x => x != c)

/-! ### The e-mail regex of `_extract_email_from_text`

`re.search(r"[A-Za-z0-9._%+-]+@[A-Za-z0-9.-]+\.[A-Za-z]{2,}", text)`,
modelled as a leftmost search with greedy backtracking, exactly the
semantics of the Python `re` engine on this pattern. -/

def isEmailA (c : Char) : Bool :=
  c.isAlpha || c.isDigit || c = '.' || c = '_' || c = '%' || c = '+' || c = '-'

def isEmailB (c : Char) : Bool :=
  c.isAlpha || c.isDigit || c = '.' || c = '-'

/- Match `\.[A-Za-z]{2,}` after a greedy `[A-Za-z0-9.-]+` of length at most
   `len`, backtracking from the longest candidate downwards; returns the
   total length consumed. -/
def emailTailTry (cs : List Char) : Nat → Option Nat
  | 0 => none
  | len + 1 =>
    match cs.drop (len + 1) with
    | '.' :: rest =>
        let lrun := (rest.takeWhile Char.isAlpha).length
        if 2 ≤ lrun then some ((len + 1) + 1 + lrun) else emailTailTry cs len
    | _ => emailTailTry cs len

/- Match the whole pattern anchored at the head of `cs` (the char after a
   maximal `[A-Za-z0-9._%+-]` run is never `@`, so the first run needs no
   backtracking); returns the match length. -/
def emailMatchAt (cs : List Char) : Option Nat :=
  let arun := cs.takeWhile isEmailA
  if arun.isEmpty then none
  else
    match cs.drop arun.length with
    | '@' :: rest =>
        (emailTailTry rest (rest.takeWhile isEmailB).length).map
          (fun m => arun.length + 1 + m)
    | _ => none

/- `re.search`: try every start position left to right. -/
def emailSearch : List Char → Option (List Char)
  | [] => none
  | c :: rest =>
    match emailMatchAt (c :: rest) with
    | some n => some ((c :: rest).take n)
    | none => emailSearch rest

/- `_extract_email_from_text(text)` (source lines 102-112). -/
def _extract_email_from_text : Option String → Option String
  | none => none
  | some t => if t = "" then none else (emailSearch t.data).map String.mk

/-! ### `_prune` (source lines 63-75) -/

/- The removal test of `_prune`: `v2 is None or v2 == [] or v2 == {}`. -/
def removable : Json → Bool
  | .null => true
  | .arr [] => true
  | .obj [] => true
  | _ => false

mutual

def _prune : Json → Json
  | .obj kvs => .obj (pruneFields kvs)
  | .arr xs => .arr (pruneItems xs)
  | j => j

def pruneFields : List (String × Json) → List (String × Json)
  | [] => []
  | (k, v) :: rest =>
      let v2 := _prune v
      if removable v2 then pruneFields rest else (k, v2) :: pruneFields rest

def pruneItems : List Json → List Json
  | [] => []
  | v :: rest =>
      let v2 := _prune v
      if removable v2 then pruneItems rest else v2 :: pruneItems rest

end

/-! ### `_lowercase_record` (source lines 118-148) -/

/- `child_path = f"{path}.{k}" if path else k`. -/
def childPath (path k : String) : String :=
  if path = "" then k else path ++ "." ++ k

/- `child_path = f"{path}[{idx}]"`. -/
def idxPath (path : String) (idx : Nat) : String :=
  path ++ "[" ++ toString idx ++ "]"

mutual

/- The source checks `path in skip_paths` once, before dispatching on the
   value's type, and returns the value unchanged when it matches; here the
   check is written in each constructor branch (for the scalar catch-all the
   check is dropped: a skipped scalar is returned unchanged either way). -/
def _lowercase_record (skip_paths : List String) (path : String) : Json → Json
  | .obj kvs =>
      if skip_paths.contains path then .obj kvs
      else .obj (lowercaseFields skip_paths path kvs)
  | .arr xs =>
      if skip_paths.contains path then .arr xs
      else .arr (lowercaseItems skip_paths path 0 xs)
  | .s v =>
      if skip_paths.contains path then .s v
      else .s (pyLower v)
  | j => j
termination_by structural data => data

def lowercaseFields (skip_paths : List String) (path : String) :
    List (String × Json) → List (String × Json)
  | [] => []
  | (k, v) :: rest =>
      (k, _lowercase_record skip_paths (childPath path k) v) ::
        lowercaseFields skip_paths path rest
termination_by structural kvs => kvs

def lowercaseItems (skip_paths : List String) (path : String) (idx : Nat) :
    List Json → List Json
  | [] => []
  | v :: rest =>
      _lowercase_record skip_paths (idxPath path idx) v ::
        lowercaseItems skip_paths path (idx + 1) rest
termination_by structural xs => xs

end

/-! ### Element trees (lxml `_Element`) -/

inductive Elem where
  | mk (tag : String) (attrs : List (String × String)) (text : String)
       (children : List Elem) (tail : String)

def Elem.tag : Elem → String
  | .mk t _ _ _ _ => t

def Elem.attrs : Elem → List (String × String)
  | .mk _ a _ _ _ => a

def Elem.text : Elem → String
  | .mk _ _ t _ _ => t

def Elem.children : Elem → List Elem
  | .mk _ _ _ cs _ => cs

def Elem.tail : Elem → String
  | .mk _ _ _ _ tl => tl

/- `el.get(attr)`. -/
def Elem.get (e : Elem) (a : String) : Option String :=
  e.attrs.lookup a

mutual

/- `el.itertext()`: own text, then each child's itertext followed by the
   child's tail (absent text is the empty string). -/
def Elem.itertext : Elem → List String
  | .mk _ _ t cs _ => t :: itertextList cs

def itertextList : List Elem → List String
  | [] => []
  | c :: cs => c.itertext ++ [c.tail] ++ itertextList cs

end

mutual

/- All strict descendants in document order. -/
def Elem.descendants : Elem → List Elem
  | .mk _ _ _ cs _ => descList cs

def descList : List Elem → List Elem
  | [] => []
  | c :: cs => c :: c.descendants ++ descList cs

end

/- `_clean_text(el)` (source lines 78-79). -/
def _clean_text (el : Elem) : String :=
  collapseWs (String.intercalate " " el.itertext)

/- `_txt(el)` (source lines 39-44). -/
def _txt : Option Elem → Option String
  | none => none
  | some el =>
      let text := _clean_text el
      if text = "" then none else some text

/-! ### The ElementTree path subset the converter uses

Each `find`/`findall` path of the source is a sequence of steps: a `child`
step matches direct children by tag, a `desc` step (the `.//tag` form)
matches strict descendants at any depth; both take an optional
`[@attr='value']` predicate. -/

inductive XStep where
  | child (tag : String) (pred : Option (String × String))
  | desc (tag : String) (pred : Option (String × String))

def predOk (pred : Option (String × String)) (e : Elem) : Bool :=
  match pred with
  | some (a, v) => e.get a == some v
  | none => true

def matchStep (e : Elem) : XStep → List Elem
  | .child tag pred => e.children.filter (fun c => c.tag == tag && predOk pred c)
  | .desc tag pred => e.descendants.filter (fun c => c.tag == tag && predOk pred c)

def findallSteps (e : Elem) (steps : List XStep) : List Elem :=
  steps.foldl (fun cur st => cur.flatMap (fun x => matchStep x st)) [e]

/- `_findall(root, path)` (source lines 55-60). -/
def _findall (root : Option Elem) (steps : List XStep) : List Elem :=
  match root with
  | some r => findallSteps r steps
  | none => []

/- `_find(root, path)` (source lines 47-52): first match in document order. -/
def _find (root : Option Elem) (steps : List XStep) : Option Elem :=
  (_findall root steps).head?

/- `get_or_fallback(root, path, ns, fallback)` (source lines 182-184). -/
def get_or_fallback (root : Elem) (steps : List XStep) (fallback : Elem) : Elem :=
  match _find (some root) steps with
  | some el => el
  | none => fallback

-- sanity checks (kept as anonymous examples, they are part of no claim)

/-! ### Entity Resolver: the affiliation map (source lines 275-304) -/

/- Python dict assignment `m[k] = v`: update in place, else append. -/
def assocSet (m : List (String × Json)) (k : String) (v : Json) :
    List (String × Json) :=
  match m with
  | [] => [(k, v)]
  | (k0, v0) :: rest =>
      if k0 == k then (k0, v) :: rest else (k0, v0) :: assocSet rest k v

/- One `<aff>` entry of `aff_map`. -/
def buildAffMapEntry (aff : Elem) : Json :=
  let inst_original := _txt (_find (some aff) [.child "institution" (some ("content-type", "original"))])
  let inst_normalized := _txt (_find (some aff) [.child "institution" (some ("content-type", "normalized"))])
  let org_name := _txt (_find (some aff) [.child "institution" (some ("content-type", "orgname"))])
  let department_1 := _txt (_find (some aff) [.child "institution" (some ("content-type", "orgdiv1"))])
  let department_2 := _txt (_find (some aff) [.child "institution" (some ("content-type", "orgdiv2"))])
  let city := _txt (_find (some aff) [.child "addr-line" none, .child "named-content" (some ("content-type", "city"))])
  let state := _txt (_find (some aff) [.child "addr-line" none, .child "named-content" (some ("content-type", "state"))])
  let country_el := _find (some aff) [.child "country" none]
  let country := _txt country_el
  let country_code := match country_el with
    | some ce => ce.get "country"
    | none => none
  let name_all := _txt (some aff)
  _prune (.obj [
    ("id", jOptStr (aff.get "id")),
    ("institution_original", jOptStr inst_original),
    ("institution_normalized", jOptStr inst_normalized),
    ("org_name", jOptStr (pyOr (pyOr (pyOr org_name inst_normalized) inst_original) name_all)),
    ("department_1", jOptStr department_1),
    ("department_2", jOptStr department_2),
    ("city", jOptStr city),
    ("state", jOptStr state),
    ("country", jOptStr country),
    ("country_code", jOptStr country_code),
    ("name", jOptStr name_all)])

/- `aff_map[aff_id or f"aff_{len(aff_map)+1}"] = ...` over all `.//aff`. -/
def buildAffMap : List Elem → List (String × Json) → List (String × Json)
  | [], m => m
  | aff :: rest, m =>
      let aff_id := aff.get "id"
      let key := if tOpt aff_id then aff_id.getD ""
                 else "aff_" ++ toString (m.length + 1)
      buildAffMap rest (assocSet m key (buildAffMapEntry aff))

/-! ### Entity Resolver: the author-note map (source lines 307-323) -/

def buildFnEntry (fn : Elem) (fn_id : String) : Json :=
  let label := _txt (_find (some fn) [.child "label" none])
  let ps := pyFilterStr ((_findall (some fn) [.child "p" none]).map (fun p => _txt (some p)))
  let text : Option String :=
    if ps.isEmpty then _txt (some fn) else some (String.intercalate " " ps)
  let note_flat := String.intercalate " " (pyFilterStr [label, text])
  .obj [
    ("id", .s fn_id),
    ("label", jOptStr label),
    ("text", jOptStr text),
    ("note_flat", jOptStr (if note_flat = "" then none else some note_flat))]

/- `fn_map[fn_id] = ...` over `.//author-notes//fn`, skipping id-less notes. -/
def buildFnMap : List Elem → List (String × Json) → List (String × Json)
  | [], m => m
  | fn :: rest, m =>
      let fn_id := fn.get "id"
      if tOpt fn_id then
        buildFnMap rest (assocSet m (fn_id.getD "") (buildFnEntry fn (fn_id.getD "")))
      else buildFnMap rest m

/-! ### Author Builder (source lines 326-461) -/

/- The raw `rid` values of `<xref ref-type=...>` markers:
   `(xr.get("rid") or "").strip()`, dropping empties. -/
def rawXrefIds (refType : String) (c : Elem) : List String :=
  pyFilterStr ((_findall (some c) [.child "xref" (some ("ref-type", refType))]).map
    (fun xr => some (pyStrip ((xr.get "rid").getD ""))))

/- `if rid not in acc: acc.append(rid)`. -/
def insertNew (acc : List String) (rid : String) : List String :=
  if acc.contains rid then acc else acc ++ [rid]

/- The id-collection loop (source lines 347-351 and 396-400): split every
   chunk on `[\s,;]+`, drop empties, de-duplicate keeping first occurrence. -/
def collectIds (chunks : List String) : List String :=
  chunks.foldl
    (fun acc chunk => ((pySplitSeps chunk).filter (fun r => r != "")).foldl insertNew acc)
    []

def affIdsOf (c : Elem) : List String :=
  collectIds (rawXrefIds "aff" c)

def fnIdsOf (c : Elem) : List String :=
  collectIds (rawXrefIds "fn" c)

/- One inline `<aff>` under a contributor (source lines 355-383); unlike the
   `aff_map` entries, `org_name` falls back only to the element's own text. -/
def buildInlineAff (aff : Elem) : Json :=
  let inst_original := _txt (_find (some aff) [.child "institution" (some ("content-type", "original"))])
  let inst_normalized := _txt (_find (some aff) [.child "institution" (some ("content-type", "normalized"))])
  let org_name := pyOr (_txt (_find (some aff) [.child "institution" (some ("content-type", "orgname"))])) (_txt (some aff))
  let department_1 := _txt (_find (some aff) [.child "institution" (some ("content-type", "orgdiv1"))])
  let department_2 := _txt (_find (some aff) [.child "institution" (some ("content-type", "orgdiv2"))])
  let city := _txt (_find (some aff) [.child "addr-line" none, .child "named-content" (some ("content-type", "city"))])
  let state := _txt (_find (some aff) [.child "addr-line" none, .child "named-content" (some ("content-type", "state"))])
  let country_el := _find (some aff) [.child "country" none]
  let country := _txt country_el
  let country_code := match country_el with
    | some ce => ce.get "country"
    | none => none
  let name_all := _txt (some aff)
  _prune (.obj [
    ("id", .null),
    ("institution_original", jOptStr inst_original),
    ("institution_normalized", jOptStr inst_normalized),
    ("org_name", jOptStr org_name),
    ("department_1", jOptStr department_1),
    ("department_2", jOptStr department_2),
    ("city", jOptStr city),
    ("state", jOptStr state),
    ("country", jOptStr country),
    ("country_code", jOptStr country_code),
    ("name", jOptStr name_all)])

def inlineAffsOf (c : Elem) : List Json :=
  (_findall (some c) [.child "aff" none]).map buildInlineAff

/- `aff_objs` (source lines 385-388): resolve each collected id against
   `aff_map`, keeping truthy hits, then extend with the inline affiliations;
   the empty list plays the role of Python's final `or None`. -/
def affObjsOf (aff_map : List (String × Json)) (c : Elem) : List Json :=
  let resolved := (affIdsOf c).filterMap (fun aid =>
    match aff_map.lookup aid with
    | some v => if pyTruthy v then some v else none
    | none => none)
  let inline := inlineAffsOf c
  if inline.isEmpty then resolved else resolved ++ inline

/- `nota_author_list` (source lines 402-406). -/
def notaAuthorOf (fn_map : List (String × Json)) (c : Elem) : List Json :=
  (fnIdsOf c).filterMap (fun rid =>
    match fn_map.lookup rid with
    | some note => if pyTruthy note then some note else none
    | none => none)

/- The note e-mail loop (source lines 411-417): first truthy regex hit. -/
def emailFromNotes : List Json → Option String
  | [] => none
  | note :: rest =>
      match _extract_email_from_text (jsonGetStr note "text") with
      | some cand => if cand != "" then some cand else emailFromNotes rest
      | none => emailFromNotes rest

/- `_txt(_find(c, "email", ns))` (source line 333). -/
def explicitEmailOf (c : Elem) : Option String :=
  _txt (_find (some c) [.child "email" none])

/- `_aff_to_flat(aff)` (source lines 82-99); the listed keys always hold
   strings when present, so `str(val)` is the identity. -/
def _aff_to_flat (aff : Json) : String :=
  let parts := ["org_name", "department_1", "department_2", "city", "state", "country"].filterMap
    (fun key =>
      match jsonGetStr aff key with
      | some v => if v != "" then some v else none
      | none => none)
  String.intercalate ", " (parts.foldl insertNew [])

/- One contributor record (source lines 331-461). -/
def buildContrib (aff_map fn_map : List (String × Json)) (c : Elem) : Json :=
  let given := _txt (_find (some c) [.child "name" none, .child "given-names" none])
  let surname := _txt (_find (some c) [.child "name" none, .child "surname" none])
  let email := explicitEmailOf c
  let orcid : Option String :=
    match _find (some c) [.child "contrib-id" (some ("contrib-id-type", "orcid"))] with
    | some oel => if oel.text != "" then some (pyStrip oel.text) else none
    | none => none
  let roles := pyFilterStr ((_findall (some c) [.child "role" none]).map (fun r => _txt (some r)))
  let aff_objs := affObjsOf aff_map c
  let nota_author := notaAuthorOf fn_map c
  let email_from_note := emailFromNotes nota_author
  let final_email := pyOr email email_from_note
  let affiliation_flat : List String :=
    if aff_objs.isEmpty then []
    else ((aff_objs.filter pyTruthy).map _aff_to_flat).filter (fun fl => fl != "")
  let full_name : Option String :=
    let joined := pyStrip (String.intercalate " " (pyFilterStr [given, surname]))
    if joined = "" then none else some joined
  let parts_author_flat : List String :=
    (match full_name with
     | some n => [n]
     | none => [])
    ++ (match orcid with
        | some o => if o != "" then ["ORCID: " ++ o] else []
        | none => [])
    ++ (match final_email with
        | some e => if e != "" then ["Email: " ++ e] else []
        | none => [])
    ++ (if affiliation_flat.isEmpty then []
        else ["Afiliações: " ++ String.intercalate " | " affiliation_flat])
    ++ (if nota_author.isEmpty then []
        else
          let notes_flat := pyFilterStr (nota_author.map (fun n => jsonGetStr n "note_flat"))
          if notes_flat.isEmpty then []
          else ["Notas: " ++ String.intercalate " | " notes_flat])
  let author_flat : Option String :=
    if parts_author_flat.isEmpty then none
    else some (String.intercalate " — " parts_author_flat)
  _prune (.obj [
    ("given", jOptStr given),
    ("surname", jOptStr surname),
    ("email", jOptStr (pyOr final_email none)),
    ("email_from_note", jOptStr (pyOr email_from_note none)),
    ("orcid", jOptStr (pyOr orcid none)),
    ("roles", if roles.isEmpty then .null else .arr (roles.map Json.s)),
    ("affiliations", if aff_objs.isEmpty then .null else .arr aff_objs),
    ("affiliation_flat", if affiliation_flat.isEmpty then .null
                         else .arr (affiliation_flat.map Json.s)),
    ("nota_author", if nota_author.isEmpty then .null else .arr nota_author),
    ("author_flat", jOptStr author_flat)])

/-! ### Full-Text Extractor (source lines 154-177) -/

def extract_full_text (root : Elem) : Option String × List Json :=
  match _find (some root) [.child "body" none] with
  | none => (none, [])
  | some body =>
    let sections := (_findall (some body) [.desc "sec" none]).filterMap (fun sec =>
      let title : Option String := (_find (some sec) [.child "title" none]).map _clean_text
      let paras := ((_findall (some sec) [.desc "p" none]).map _clean_text).filter
        (fun p => p != "")
      if tOpt title || !paras.isEmpty then
        some (_prune (.obj [("title", jOptStr title),
                            ("paragraphs", .arr (paras.map Json.s))]))
      else none)
    let all_paras := ((_findall (some body) [.desc "p" none]).map _clean_text).filter
      (fun p => p != "")
    let full_text : Option String :=
      if all_paras.isEmpty then none
      else some (String.intercalate "\n\n" all_paras)
    (full_text, sections)

/-! ### Field Extractors (source lines 196-271 and 467-501) -/

/- Keyword-group language: `(lang or "und").strip().lower()`, region subtag
   stripped at the first `-` (source lines 487-491). -/
def kwLangOf (kg : Elem) : String :=
  let lang0 := pyOr (kg.get "\x7bhttp://www.w3.org/XML/1998/namespace\x7dlang") (kg.get "xml:lang")
  let lang1 := pyLower (pyStrip (if tOpt lang0 then lang0.getD "" else "und"))
  if lang1.data.contains '-' then String.mk (takeUntilChar '-' lang1.data) else lang1

/- `kw_by_lang[lang].extend(kws)` with on-demand initialisation. -/
def assocExtend (m : List (String × List String)) (k : String) (vs : List String) :
    List (String × List String) :=
  match m with
  | [] => [(k, vs)]
  | (k0, v0) :: rest =>
      if k0 == k then (k0, v0 ++ vs) :: rest else (k0, v0) :: assocExtend rest k vs

/- The `kwd-group` loop (source lines 484-499). -/
def buildKwByLang : List Elem → List (String × List String) → List (String × List String)
  | [], m => m
  | kg :: rest, m =>
      let kws := pyFilterStr ((_findall (some kg) [.child "kwd" none]).map (fun k => _txt (some k)))
      if kws.isEmpty then buildKwByLang rest m
      else buildKwByLang rest (assocExtend m (kwLangOf kg) kws)

/- One `article-id` loop step (source lines 227-232): `article_ids[id_type] = val`. -/
def buildArticleIds : List Elem → List (String × Json) → List (String × Json)
  | [], m => m
  | aid :: rest, m =>
      let id_type := pyOr (aid.get "pub-id-type") (aid.get "pubid-type")
      let val := pyStrip aid.text
      if tOpt id_type && val != "" then
        buildArticleIds rest (assocSet m (id_type.getD "") (.s val))
      else buildArticleIds rest m

/- One `pub-date` entry (source lines 253-263). -/
def buildPubDate (pd : Elem) : Json :=
  _prune (.obj [
    ("pub_type", jOptStr (pd.get "pub-type")),
    ("year", jOptStr (_txt (_find (some pd) [.child "year" none]))),
    ("month", jOptStr (_txt (_find (some pd) [.child "month" none]))),
    ("day", jOptStr (_txt (_find (some pd) [.child "day" none]))),
    ("season", jOptStr (_txt (_find (some pd) [.child "season" none])))])

/- One trans-title entry (source lines 212-222). -/
def buildTransTitle (alt : Elem) : Json :=
  _prune (.obj [
    ("lang", jOptStr (pyOr (alt.get "\x7bhttp://www.w3.org/XML/1998/namespace\x7dlang") (alt.get "xml:lang"))),
    ("title", jOptStr (pyOr (_txt (_find (some alt) [.child "trans-title" none]))
                            (_txt (_find (some alt) [.child "article-title" none]))))])

/- One abstract entry (source lines 468-479); the tag filter mirrors
   `ab.tag.endswith("abstract")`. -/
def listEndsWith (l suf : List Char) : Bool :=
  l.reverse.take suf.length == suf.reverse

def buildAbstract (ab : Elem) : Option Json :=
  if listEndsWith ab.tag.data "abstract".data then
    some (_prune (.obj [
      ("lang", jOptStr (pyOr (ab.get "\x7bhttp://www.w3.org/XML/1998/namespace\x7dlang") (ab.get "xml:lang"))),
      ("text", jOptStr (_txt (some ab)))]))
  else none

/-! ### Reference Builder (source lines 511-581) -/

def buildReference (ref : Elem) : Json :=
  let rid := ref.get "id"
  let mixed := pyOr (_txt (_find (some ref) [.child "mixed-citation" none])) (_txt (some ref))
  let structured : List (String × Json) :=
    match _find (some ref) [.child "element-citation" none] with
    | none => []
    | some ec =>
      [("publication_type", jOptStr (ec.get "publication-type"))]
      ++ (match _find (some ec) [.child "person-group" none] with
          | none => []
          | some pg =>
            let authors := (_findall (some pg) [.child "name" none]).map (fun nm =>
              _prune (.obj [
                ("surname", jOptStr (_txt (_find (some nm) [.child "surname" none]))),
                ("given_names", jOptStr (_txt (_find (some nm) [.child "given-names" none])))]))
            if authors.isEmpty then [] else [("authors", .arr authors)])
      ++ [
        ("article_title", jOptStr (_txt (_find (some ec) [.child "article-title" none]))),
        ("source", jOptStr (_txt (_find (some ec) [.child "source" none]))),
        ("comment", jOptStr (_txt (_find (some ec) [.child "comment" none]))),
        ("publisher_loc", jOptStr (_txt (_find (some ec) [.child "publisher-loc" none]))),
        ("publisher_name", jOptStr (_txt (_find (some ec) [.child "publisher-name" none]))),
        ("year", jOptStr (_txt (_find (some ec) [.child "year" none]))),
        ("volume", jOptStr (_txt (_find (some ec) [.child "volume" none]))),
        ("issue", jOptStr (_txt (_find (some ec) [.child "issue" none]))),
        ("fpage", jOptStr (_txt (_find (some ec) [.child "fpage" none]))),
        ("lpage", jOptStr (_txt (_find (some ec) [.child "lpage" none]))),
        ("page_range", jOptStr (_txt (_find (some ec) [.child "page-range" none]))),
        ("doi",
          match _find (some ec) [.child "pub-id" (some ("pub-id-type", "doi"))] with
          | some dp => if dp.text != "" then .s (pyStrip dp.text) else .null
          | none => .null)]
      ++ (match _find (some ec) [.child "ext-link" none] with
          | none => []
          | some ext =>
            [("uri", jOptStr (pyOr (pyOr (ext.get "\x7bhttp://www.w3.org/1999/xlink\x7dhref")
                                         (ext.get "xlink:href"))
                                   (_txt (some ext))))])
  _prune (.obj [
    ("id", jOptStr rid),
    ("mixed_citation", jOptStr mixed),
    ("structured", if structured.isEmpty then .null else .obj structured)])

/-! ### The default skip set (source lines 600-646) -/

def buildSkip (record : Json) : List String :=
  ["source_file"]
  ++ (match jsonLookup record "abstracts" with
      | some (.arr xs) => (List.range xs.length).map
          (fun idx => "abstracts[" ++ toString idx ++ "].text")
      | _ => [])
  ++ (if (jsonLookup record "full_text").isSome then ["full_text"] else [])
  ++ (match jsonLookup record "full_text_sections" with
      | some (.arr secs) => secs.enum.flatMap (fun sec =>
          match sec.2 with
          | .obj kvs =>
              match kvs.lookup "paragraphs" with
              | some (.arr ps) => (List.range ps.length).map
                  (fun j => "full_text_sections[" ++ toString sec.1 ++ "].paragraphs["
                            ++ toString j ++ "]")
              | _ => []
          | _ => [])
      | _ => [])
  ++ (if (jsonLookup record "raw_xml").isSome then ["raw_xml"] else [])
  ++ (match jsonLookup record "authors" with
      | some (.arr as0) => (List.range as0.length).flatMap (fun idx =>
          ["authors[" ++ toString idx ++ "].email",
           "authors[" ++ toString idx ++ "].email_from_note",
           "authors[" ++ toString idx ++ "].orcid"])
      | _ => [])
  ++ (match jsonLookup record "article_ids" with
      | some (.obj kvs) => kvs.map (fun kv => "article_ids." ++ kv.1)
      | _ => [])
  ++ (match jsonLookup record "references" with
      | some (.arr rs) => (List.range rs.length).flatMap (fun idx =>
          ["references[" ++ toString idx ++ "].structured.doi",
           "references[" ++ toString idx ++ "].structured.pmid",
           "references[" ++ toString idx ++ "].structured.pmcid",
           "references[" ++ toString idx ++ "].structured.uri"])
      | _ => [])
  ++ (match jsonLookup record "authors" with
      | some (.arr as0) => as0.enum.flatMap (fun a =>
          match jsonLookup a.2 "affiliations" with
          | some (.arr affs) => (List.range affs.length).map
              (fun j => "authors[" ++ toString a.1 ++ "].affiliations["
                        ++ toString j ++ "].country_code")
          | _ => [])
      | _ => [])

/-! ### `parse_xml_to_record` (source lines 186-650)

The tree parser (`etree.fromstring`) is the lxml library; its output tree is
taken as the `root` argument, the raw bytes' decoded text as `raw_xml`. -/

def parse_xml_to_record (source_file : String) (root : Elem)
    (include_raw_xml : Bool) (raw_xml : String) (lowercase : Bool) : Json :=
  let front := get_or_fallback root [.child "front" none] root
  let article_meta := get_or_fallback front [.child "article-meta" none] front
  let aff_map := buildAffMap (_findall (some article_meta) [.desc "aff" none]) []
  let fn_map := buildFnMap (_findall (some article_meta) [.desc "author-notes" none, .desc "fn" none]) []
  let contribs := (_findall (some article_meta) [.child "contrib-group" none, .child "contrib" none]).filterMap
    (fun c =>
      let ct := c.get "contrib-type"
      if tOpt ct && ct.getD "" != "author" then none
      else some (buildContrib aff_map fn_map c))
  let article_ids := buildArticleIds (_findall (some article_meta) [.child "article-id" none]) []
  let pub_dates := ((_findall (some article_meta) [.child "pub-date" none]).map buildPubDate).filter pyTruthy
  let abstracts := (_findall (some article_meta) [.child "abstract" none]).filterMap buildAbstract
  let kw_by_lang := buildKwByLang (_findall (some article_meta) [.child "kwd-group" none]) []
  let ft := extract_full_text root
  let references :=
    match _find (some article_meta) [.child "ref-list" none] with
    | none => []
    | some rl => (_findall (some rl) [.child "ref" none]).map buildReference
  let entries : List (String × Json) :=
    [("source_file", .s source_file)]
    ++ (if tOpt (root.get "article-type")
        then [("article_type", .s ((root.get "article-type").getD ""))] else [])
    ++ (match _find (some article_meta) [.child "title-group" none] with
        | some tg =>
          [("article_title", jOptStr (_txt (_find (some tg) [.child "article-title" none])))]
          ++ (let translations := (_findall (some tg) [.child "trans-title-group" none]).map buildTransTitle
              if translations.isEmpty then []
              else [("article_title_translations", .arr translations)])
        | none => [])
    ++ (if article_ids.isEmpty then [] else [("article_ids", .obj article_ids)])
    ++ (match _find (some article_meta) [.child "article-categories" none,
                                         .child "subj-group" (some ("subj-group-type", "heading"))] with
        | some cg => [("article_category", jOptStr (_txt (_find (some cg) [.child "subject" none])))]
        | none => [])
    ++ (match _find (some front) [.child "journal-meta" none] with
        | some jm =>
          (match _txt (_find (some jm) [.child "journal-id" none]) with
           | some jid => if jid != "" then [("journal_id", .s jid)] else []
           | none => [])
          ++ (match _txt (_find (some jm) [.child "journal-title-group" none, .child "journal-title" none]) with
              | some jt => if jt != "" then [("journal_title", .s jt)] else []
              | none => [])
        | none => [])
    ++ (if pub_dates.isEmpty then [] else [("pub_dates", .arr pub_dates)])
    ++ [("volume", jOptStr (_txt (_find (some article_meta) [.child "volume" none]))),
        ("issue", jOptStr (_txt (_find (some article_meta) [.child "issue" none]))),
        ("fpage", jOptStr (_txt (_find (some article_meta) [.child "fpage" none]))),
        ("lpage", jOptStr (_txt (_find (some article_meta) [.child "lpage" none])))]
    ++ (if contribs.isEmpty then [] else [("authors", .arr contribs)])
    ++ (if abstracts.isEmpty then [] else [("abstracts", .arr abstracts)])
    ++ (if kw_by_lang.isEmpty then []
        else [("keywords", .arr (kw_by_lang.map (fun kv =>
          .obj [(kv.1, .arr (kv.2.map Json.s))])))])
    ++ (match ft.1 with
        | some t => if t != "" then [("full_text", .s t)] else []
        | none => [])
    ++ (if ft.2.isEmpty then [] else [("full_text_sections", .arr ft.2)])
    ++ (if references.isEmpty then [] else [("references", .arr references)])
    ++ (if include_raw_xml then [("raw_xml", .s raw_xml)] else [])
  let record := _prune (.obj entries)
  if lowercase then _lowercase_record (buildSkip record) "" record
  else record

/-! ### NDJSON Writer and Bulk Exporter (source lines 656-714) -/

/- `json.dumps(..., ensure_ascii=False)` with default separators; the only
   characters needing an escape in the data handled here are the quote,
   the backslash and the ASCII control characters used below. -/
def escChar (c : Char) : String :=
  if c = '"' then "\\\""
  else if c = '\\' then "\\\\"
  else if c = '\n' then "\\n"
  else if c = '\t' then "\\t"
  else if c = '\r' then "\\r"
  else String.mk [c]

def escapeStr (s : String) : String :=
  String.join (s.data.map escChar)

mutual

def jsonDumps : Json → String
  | .null => "null"
  | .b true => "true"
  | .b false => "false"
  | .i v => toString v
  | .s v => "\"" ++ escapeStr v ++ "\""
  | .arr xs => "[" ++ String.intercalate ", " (dumpsList xs) ++ "]"
  | .obj kvs => "\x7b" ++ String.intercalate ", " (dumpsPairs kvs) ++ "\x7d"

def dumpsList : List Json → List String
  | [] => []
  | x :: xs => jsonDumps x :: dumpsList xs

def dumpsPairs : List (String × Json) → List String
  | [] => []
  | (k, v) :: kvs => ("\"" ++ escapeStr k ++ "\": " ++ jsonDumps v) :: dumpsPairs kvs

end

/- `walk_and_convert` (source lines 656-690), abstracted over I/O: the
   documents are given as the sorted list of (path, outcome) pairs, where
   the outcome is the parsed record or the exception (type name, message)
   raised by the per-document pipeline.  Returns the output lines and the
   count of successfully converted documents. -/
def walkGo : List (String × Except (String × String) Json) → List String → Nat →
    List String × Nat
  | [], lines, total => (lines, total)
  | (path, res) :: rest, lines, total =>
      match res with
      | .error exc =>
          walkGo rest
            (lines ++ [jsonDumps (.obj [("source_file", .s path),
                                        ("error", .s (exc.1 ++ ": " ++ exc.2))])])
            total
      | .ok r => walkGo rest (lines ++ [jsonDumps r]) (total + 1)

def walk_and_convert (docs : List (String × Except (String × String) Json)) :
    List String × Nat :=
  walkGo docs [] 0

/- `write_bulk` (source lines 693-714), abstracted over I/O: the input NDJSON
   file is given as its list of lines.  Returns the output lines and `n`. -/
def write_bulkGo (index_name : String) : List String → List String → Nat →
    List String × Nat
  | [], out, n => (out, n)
  | line :: rest, out, n =>
      let l := pyStrip line
      if l = "" then write_bulkGo index_name rest out n
      else
        write_bulkGo index_name rest
          (out ++ [jsonDumps (.obj [("index", .obj [("_index", .s index_name)])]), l])
          (n + 1)

def write_bulk (ndjson_lines : List String) (index_name : String) :
    List String × Nat :=
  write_bulkGo index_name ndjson_lines [] 0

/-! ### Claims C5 and C6: affiliation reference ids and the affiliation list -/

/- Specification-side description of the id loop: keep the first occurrence
   of every value, in order. -/
def firstSeen : List String → List String
  | [] => []
  | x :: xs => x :: firstSeen (xs.filter (fun y => y != x))
termination_by l => l.length
decreasing_by
  have := List.length_filter_le (fun y => y != x) xs
  simp only [List.length_cons]
  omega

/- Concrete contributor whose single cross-reference marker of type "aff"
   carries the value "aff1 aff1,aff2". -/
def elMk (tag : String) (attrs : List (String × String)) (text : String)
    (children : List Elem) : Elem :=
  .mk tag attrs text children ""

def contribC5 : Elem :=
  elMk "contrib" [] "" [elMk "xref" [("ref-type", "aff"), ("rid", "aff1 aff1,aff2")] "" []]

/- Contributor with two identical inline affiliations (no id, org name
   "Universidade X" each), and the affiliation record each resolves to. -/
def affElemC6 : Elem :=
  elMk "aff" [] "" [elMk "institution" [("content-type", "orgname")] "Universidade X" []]

def contribC6 : Elem :=
  elMk "contrib" [] "" [affElemC6, affElemC6]

def affValC6 : Json :=
  .obj [("org_name", .s "Universidade X"), ("name", .s "Universidade X")]

/-! ### Claim C7: the Bulk Exporter's action/metadata line -/

def startsWithChars : List Char → List Char → Bool
  | [], _ => true
  | _ :: _, [] => false
  | c :: cs, d :: ds => c == d && startsWithChars cs ds

/- Substring occurrence test on character lists. -/
def hasSubChars (sub : List Char) : List Char → Bool
  | [] => sub.isEmpty
  | d :: ds => startsWithChars sub (d :: ds) || hasSubChars sub ds

/- A record carrying a "publisher-id" identifier, serialized as one NDJSON
   line, and the action/metadata line the exporter emits for it. -/
def recC7 : Json :=
  .obj [("source_file", .s "f.xml"),
        ("article_ids", .obj [("publisher-id", .s "pid123")])]

/-! ### Structural paths into JSON-like values (for C1, C9, C10) -/

inductive PStep where
  | key (k : String)
  | idx (i : Nat)

def getPath : Json → List PStep → Option Json
  | j, [] => some j
  | .obj kvs, .key k :: rest =>
      match kvs.lookup k with
      | some v => getPath v rest
      | none => none
  | .arr xs, .idx n :: rest =>
      match xs[n]? with
      | some v => getPath v rest
      | none => none
  | _, _ :: _ => none

/- The accumulated path string the case normalizer builds along `steps`. -/
def stepPath (path : String) : PStep → String
  | .key k => childPath path k
  | .idx n => idxPath path n

def pathString (base : String) : List PStep → String
  | [] => base
  | st :: rest => pathString (stepPath base st) rest

/- Some ancestor-or-self accumulated path along `steps` lies in `skip`. -/
def anySkipped (skip : List String) (base : String) : List PStep → Bool
  | [] => skip.contains base
  | st :: rest => skip.contains base || anySkipped skip (stepPath base st) rest

/-! ### Claim C9: the end-to-end minimal document -/

/- One author (given "Ana", surname "Silva") referencing one affiliation
   with org name "Universidade X" and country "Brasil", one abstract in
   language "pt", no body. -/
def minimalDoc : Elem :=
  elMk "article" [] "" [
    elMk "front" [] "" [
      elMk "article-meta" [] "" [
        elMk "contrib-group" [] "" [
          elMk "contrib" [("contrib-type", "author")] "" [
            elMk "name" [] "" [
              elMk "given-names" [] "Ana" [],
              elMk "surname" [] "Silva" []],
            elMk "xref" [("ref-type", "aff"), ("rid", "aff1")] "" []]],
        elMk "aff" [("id", "aff1")] "" [
          elMk "institution" [("content-type", "orgname")] "Universidade X" [],
          elMk "country" [] "Brasil" []],
        elMk "abstract" [("xml:lang", "pt")] "Resumo do artigo." []]]]

/-! ### Claim C10: the Case Normalizer preserves structure -/

/- Same structure: same mapping keys in the same order, same sequence
   lengths, equal non-string leaves; a string leaf may change only into its
   lowercased form. -/
inductive SameShape : Json → Json → Prop where
  | null : SameShape .null .null
  | boolv (v : Bool) : SameShape (.b v) (.b v)
  | intv (v : Int) : SameShape (.i v) (.i v)
  | strv (v w : String) : w = v ∨ w = pyLower v → SameShape (.s v) (.s w)
  | arrv (xs ys : List Json) : xs.length = ys.length →
      (∀ n (h1 : n < xs.length) (h2 : n < ys.length), SameShape xs[n] ys[n]) →
      SameShape (.arr xs) (.arr ys)
  | objv (kvs kvs' : List (String × Json)) : kvs.length = kvs'.length →
      (∀ n (h1 : n < kvs.length) (h2 : n < kvs'.length),
        (kvs[n]).1 = (kvs'[n]).1) →
      (∀ n (h1 : n < kvs.length) (h2 : n < kvs'.length),
        SameShape (kvs[n]).2 (kvs'[n]).2) →
      SameShape (.obj kvs) (.obj kvs')

/- Contributor with an explicit email element and a note cross-reference,
   and a note table whose note text carries a different address. -/
def contribC4 : Elem :=
  elMk "contrib" [] "" [
    elMk "email" [] "x@y.com" [],
    elMk "xref" [("ref-type", "fn"), ("rid", "fn1")] "" []]

def fnMapC4 : List (String × Json) :=
  [("fn1", .obj [("id", .s "fn1"), ("label", .null),
                 ("text", .s "escreva para n@z.org"),
                 ("note_flat", .s "escreva para n@z.org")])]

/-! ### Induction principle for JSON-like values -/

theorem Json.inductionOn {P : Json → Prop}
    (hnull : P .null) (hb : ∀ v, P (.b v)) (hi : ∀ v, P (.i v))
    (hs : ∀ v, P (.s v))
    (harr : ∀ xs, (∀ x ∈ xs, P x) → P (.arr xs))
    (hobj : ∀ kvs, (∀ kv ∈ kvs, P kv.2) → P (.obj kvs)) :
    ∀ j, P j
  | .null => hnull
  | .b v => hb v
  | .i v => hi v
  | .s v => hs v
  | .arr xs =>
      harr xs (fun x _ => Json.inductionOn hnull hb hi hs harr hobj x)
  | .obj kvs =>
      hobj kvs (fun kv _ => Json.inductionOn hnull hb hi hs harr hobj kv.2)
termination_by j => sizeOf j
decreasing_by
  · rename_i hx
    have h1 := List.sizeOf_lt_of_mem hx
    simp only [Json.arr.sizeOf_spec]
    omega
  · rename_i kv hkv
    have h1 := List.sizeOf_lt_of_mem hkv
    obtain ⟨k, v⟩ := kv
    simp only [Json.obj.sizeOf_spec, Prod.mk.sizeOf_spec] at h1 ⊢
    omega

/-! ### Claims C2 and C3: the Record Pruner -/

theorem pruneFields_idem (kvs : List (String × Json))
    (ih : ∀ kv ∈ kvs, _prune (_prune kv.2) = _prune kv.2) :
    pruneFields (pruneFields kvs) = pruneFields kvs := by
  induction kvs with
  | nil => rfl
  | cons kv rest ihr =>
    obtain ⟨k, v⟩ := kv
    have hv : _prune (_prune v) = _prune v := ih (k, v) (List.mem_cons_self _ _)
    have hrest := ihr (fun kv h => ih kv (List.mem_cons_of_mem _ h))
    by_cases hr : removable (_prune v)
    · simp only [pruneFields, hr, if_pos, if_true]
      exact hrest
    · simp only [pruneFields, hr, if_neg, if_false, Bool.false_eq_true,
        not_false_eq_true, hv, hrest]

theorem pruneItems_idem (xs : List Json)
    (ih : ∀ x ∈ xs, _prune (_prune x) = _prune x) :
    pruneItems (pruneItems xs) = pruneItems xs := by
  induction xs with
  | nil => rfl
  | cons x rest ihr =>
    have hx : _prune (_prune x) = _prune x := ih x (List.mem_cons_self _ _)
    have hrest := ihr (fun y h => ih y (List.mem_cons_of_mem _ h))
    by_cases hr : removable (_prune x)
    · simp only [pruneItems, hr, if_pos, if_true]
      exact hrest
    · simp only [pruneItems, hr, if_neg, if_false, Bool.false_eq_true,
        not_false_eq_true, hx, hrest]

/-- C2: the record pruner is idempotent: for every JSON-like value `x`,
`_prune (_prune x) = _prune x`. -/
theorem claim_C2 : ∀ x : Json, _prune (_prune x) = _prune x := by
  intro x
  induction x using Json.inductionOn with
  | hnull => rfl
  | hb v => rfl
  | hi v => rfl
  | hs v => rfl
  | harr xs ih => simp only [_prune, pruneItems_idem xs ih]
  | hobj kvs ih => simp only [_prune, pruneFields_idem kvs ih]

theorem pruneFields_eq_filter_map (kvs : List (String × Json)) :
    pruneFields kvs
      = (kvs.map (fun kv => (kv.1, _prune kv.2))).filter
          (fun kv => !removable kv.2) := by
  induction kvs with
  | nil => rfl
  | cons kv rest ih =>
    obtain ⟨k, v⟩ := kv
    by_cases hr : removable (_prune v)
    · simp [pruneFields, hr, ih, List.filter]
    · simp [pruneFields, hr, ih, List.filter]

/-- C3: for every mapping, pruning maps `_prune` over the values first and
then removes exactly the entries whose pruned value is null, an empty
sequence, or an empty mapping; the falsy scalars `0` and `false` are never
removable and are preserved unchanged by pruning. -/
theorem claim_C3 :
    (∀ kvs : List (String × Json),
        _prune (.obj kvs)
          = .obj ((kvs.map (fun kv => (kv.1, _prune kv.2))).filter
              (fun kv => !removable kv.2)))
    ∧ removable (.i 0) = false
    ∧ removable (.b false) = false
    ∧ _prune (.i 0) = .i 0
    ∧ _prune (.b false) = .b false := by
  refine ⟨fun kvs => ?_, rfl, rfl, rfl, rfl⟩
  simp only [_prune, pruneFields_eq_filter_map]

theorem foldl_insertNew : ∀ (l acc : List String),
    l.foldl insertNew acc
      = acc ++ firstSeen (l.filter (fun y => !decide (y ∈ acc)))
  | [], acc => by simp [firstSeen]
  | x :: xs, acc => by
    by_cases hc : x ∈ acc
    · have h1 : insertNew acc x = acc := by simp [insertNew, hc]
      rw [List.foldl_cons, h1, foldl_insertNew xs acc]
      simp [List.filter_cons, hc]
    · have h1 : insertNew acc x = acc ++ [x] := by simp [insertNew, hc]
      rw [List.foldl_cons, h1, foldl_insertNew xs (acc ++ [x])]
      have h3 : xs.filter (fun y => !decide (y ∈ acc ++ [x]))
          = (xs.filter (fun y => !decide (y ∈ acc))).filter (fun y => y != x) := by
        rw [List.filter_filter]
        apply List.filter_congr
        intro y _
        by_cases hy : y ∈ acc <;> by_cases hyx : y = x <;>
          simp [hy, hyx, List.mem_append, bne]
      have h4 : (x :: xs).filter (fun y => !decide (y ∈ acc))
          = x :: xs.filter (fun y => !decide (y ∈ acc)) := by
        simp [List.filter_cons, hc]
      rw [h4, firstSeen, ← h3, List.append_assoc]
      rfl
termination_by l _ => l.length
decreasing_by
  all_goals simp only [List.length_cons]; omega

theorem collectIds_foldl (tok : String → List String)
    (chunks : List String) : ∀ acc : List String,
    chunks.foldl (fun acc chunk => (tok chunk).foldl insertNew acc) acc
      = (chunks.flatMap tok).foldl insertNew acc := by
  induction chunks with
  | nil => intro acc; rfl
  | cons c rest ih =>
    intro acc
    rw [List.foldl_cons, ih, List.flatMap_cons, List.foldl_append]

theorem nodup_foldl_insertNew : ∀ (l acc : List String),
    acc.Nodup → (l.foldl insertNew acc).Nodup := by
  intro l
  induction l with
  | nil => intro acc h; exact h
  | cons x xs ih =>
    intro acc h
    rw [List.foldl_cons]
    apply ih
    by_cases hc : x ∈ acc
    · simpa [insertNew, hc] using h
    · rw [show insertNew acc x = acc ++ [x] by simp [insertNew, hc]]
      exact List.Nodup.append h (List.nodup_singleton x)
        (List.disjoint_singleton.mpr hc)

/-- C5: the affiliation reference ids are the marker values split on runs of
whitespace, commas and semicolons, de-duplicated keeping the first
occurrence of each id in order; in particular a contributor whose marker
carries "aff1 aff1,aff2" yields exactly ["aff1", "aff2"]. -/
theorem claim_C5 :
    (∀ chunks : List String,
        collectIds chunks
          = firstSeen (chunks.flatMap
              (fun chunk => (pySplitSeps chunk).filter (fun r => r != ""))))
    ∧ affIdsOf contribC5 = ["aff1", "aff2"] := by
  constructor
  · intro chunks
    unfold collectIds
    rw [collectIds_foldl, foldl_insertNew]
    simp
  · rfl

/-- C6 fails on the code: a contributor carrying two identical inline
affiliations yields an affiliations list with a duplicated value — only
reference ids are de-duplicated, affiliation values are not. -/
theorem claim_C6_counterexample :
    jsonLookup (buildContrib [] [] contribC6) "affiliations"
      = some (.arr [affValC6, affValC6])
    ∧ ¬ ([affValC6, affValC6] : List Json).Nodup := by
  refine ⟨rfl, fun h => ?_⟩
  exact (List.nodup_cons.mp h).1 (List.mem_singleton.mpr rfl)

/-- C6 (amended): for every contributor, the affiliation list is exactly the
table-resolved affiliations (one truthy lookup per collected reference id,
in first-seen id order) followed by the inline affiliations in document
order; the collected reference ids carry no duplicates, but equal
affiliation values may repeat in the list. -/
theorem claim_C6 : ∀ (aff_map : List (String × Json)) (c : Elem),
    affObjsOf aff_map c
      = ((affIdsOf c).filterMap (fun aid =>
          match aff_map.lookup aid with
          | some v => if pyTruthy v then some v else none
          | none => none)) ++ inlineAffsOf c
    ∧ (affIdsOf c).Nodup := by
  intro aff_map c
  constructor
  · unfold affObjsOf
    by_cases h : (inlineAffsOf c).isEmpty
    · simp [h, List.isEmpty_iff.mp h]
    · simp [h]
  · unfold affIdsOf collectIds
    rw [collectIds_foldl]
    exact nodup_foldl_insertNew _ _ List.nodup_nil

theorem write_bulkGo_spec (name : String) :
    ∀ (lines out : List String) (n : Nat),
    write_bulkGo name lines out n
      = (out ++ ((lines.map pyStrip).filter (fun l => l != "")).flatMap
            (fun l => [jsonDumps (.obj [("index", .obj [("_index", .s name)])]), l]),
         n + ((lines.map pyStrip).filter (fun l => l != "")).length) := by
  intro lines
  induction lines with
  | nil => intro out n; simp [write_bulkGo]
  | cons line rest ih =>
    intro out n
    by_cases h : pyStrip line = ""
    · simp [write_bulkGo, h, ih]
    · simp only [write_bulkGo, h, if_neg, List.map_cons, List.filter_cons,
        bne_iff_ne, ne_eq, not_false_eq_true, decide_True, List.flatMap_cons,
        List.length_cons, ih, if_true, Prod.mk.injEq]
      refine ⟨by simp [List.append_assoc], by omega⟩

/-- C7 fails on the code: the action/metadata line emitted for a record
whose "publisher-id" identifier is "pid123" is the constant
`{"index": {"_index": "scielo"}}` — it contains no document id even though
the record line carries one, so no publisher-id/other/DOI/path fallback is
performed. -/
theorem claim_C7_counterexample :
    (write_bulk [jsonDumps recC7] "scielo").1
      = ["\x7b\"index\": \x7b\"_index\": \"scielo\"\x7d\x7d", jsonDumps recC7]
    ∧ hasSubChars "pid123".data "\x7b\"index\": \x7b\"_index\": \"scielo\"\x7d\x7d".data = false
    ∧ hasSubChars "pid123".data (jsonDumps recC7).data = true := by
  exact ⟨rfl, rfl, rfl⟩

/-- C7 (amended): for every record line, the bulk exporter emits the pair
(action line, record line) where the action line is the constant
`{"index": {"_index": index_name}}`; it names only the target index and
carries no document id, irrespective of the record's identifiers, DOI or
source file path. -/
theorem claim_C7 : ∀ (index_name : String) (lines : List String),
    (write_bulk lines index_name).1
      = ((lines.map pyStrip).filter (fun l => l != "")).flatMap
          (fun l => [jsonDumps (.obj [("index", .obj [("_index", .s index_name)])]), l])
    ∧ (write_bulk lines index_name).2
      = ((lines.map pyStrip).filter (fun l => l != "")).length := by
  intro index_name lines
  unfold write_bulk
  rw [write_bulkGo_spec]
  simp

/-! ### Claim C8: per-document failure handling of the NDJSON writer -/

theorem walkGo_spec :
    ∀ (docs : List (String × Except (String × String) Json))
      (lines : List String) (total : Nat),
    walkGo docs lines total
      = (lines ++ docs.map (fun d =>
            match d.2 with
            | .error exc => jsonDumps (.obj [("source_file", .s d.1),
                                             ("error", .s (exc.1 ++ ": " ++ exc.2))])
            | .ok r => jsonDumps r),
         total + (docs.filter (fun d =>
            match d.2 with
            | .ok _ => true
            | .error _ => false)).length) := by
  intro docs
  induction docs with
  | nil => intro lines total; simp [walkGo]
  | cons d rest ih =>
    intro lines total
    obtain ⟨path, res⟩ := d
    match res with
    | .error exc =>
      simp [walkGo, ih, List.append_assoc]
    | .ok r =>
      simp [walkGo, ih, List.append_assoc]
      omega

/-- C8: each input document yields exactly one output line: a document whose
pipeline raised an exception yields the serialization of a record holding
only its source_file and an error field (exception type name ++ ": " ++
message), every other document yields its record's line, and a failing
document never drops or aborts the documents after it. -/
theorem claim_C8 : ∀ docs : List (String × Except (String × String) Json),
    (walk_and_convert docs).1
      = docs.map (fun d =>
          match d.2 with
          | .error exc => jsonDumps (.obj [("source_file", .s d.1),
                                           ("error", .s (exc.1 ++ ": " ++ exc.2))])
          | .ok r => jsonDumps r)
    ∧ (walk_and_convert docs).1.length = docs.length
    ∧ (walk_and_convert docs).2
      = (docs.filter (fun d =>
          match d.2 with
          | .ok _ => true
          | .error _ => false)).length := by
  intro docs
  unfold walk_and_convert
  rw [walkGo_spec]
  simp

/-- C9 fails on the code: on the minimal document the flattened affiliation
string joins the org name and the country, so `authors[0].author_flat` of
the pruned record is "Ana Silva — Afiliações: Universidade X, Brasil", not
"Ana Silva — Afiliações: Universidade X" as claimed. -/
theorem claim_C9_counterexample :
    getPath (parse_xml_to_record "min.xml" minimalDoc false "" false)
        [.key "authors", .idx 0, .key "author_flat"]
      = some (.s "Ana Silva — Afiliações: Universidade X, Brasil")
    ∧ "Ana Silva — Afiliações: Universidade X, Brasil"
        ≠ "Ana Silva — Afiliações: Universidade X" := by
  exact ⟨rfl, by decide⟩

/-- C9 (amended): the minimal document yields a pruned record whose
`authors[0].author_flat` is "Ana Silva — Afiliações: Universidade X, Brasil"
(the country joins the flattened affiliation), with no "Notas:" segment and
no full_text key. -/
theorem claim_C9 :
    getPath (parse_xml_to_record "min.xml" minimalDoc false "" false)
        [.key "authors", .idx 0, .key "author_flat"]
      = some (.s "Ana Silva — Afiliações: Universidade X, Brasil")
    ∧ hasSubChars "Notas:".data
        "Ana Silva — Afiliações: Universidade X, Brasil".data = false
    ∧ jsonLookup (parse_xml_to_record "min.xml" minimalDoc false "" false)
        "full_text" = none := by
  exact ⟨rfl, rfl, rfl⟩

/-! ### Claim C1: path-exactness of the Case Normalizer -/

theorem lookup_lowercaseFields (skip : List String) (path k : String) :
    ∀ kvs : List (String × Json),
    (lowercaseFields skip path kvs).lookup k
      = (kvs.lookup k).map (fun v => _lowercase_record skip (childPath path k) v) := by
  intro kvs
  induction kvs with
  | nil => rfl
  | cons kv rest ih =>
    obtain ⟨k0, v0⟩ := kv
    by_cases hk : k = k0
    · subst hk
      simp [lowercaseFields, List.lookup]
    · have hb : (k == k0) = false := by simp [hk]
      simp [lowercaseFields, List.lookup, hb, ih]

theorem getElem?_lowercaseItems (skip : List String) (path : String) :
    ∀ (xs : List Json) (j n : Nat),
    (lowercaseItems skip path j xs)[n]?
      = (xs[n]?).map (fun v => _lowercase_record skip (idxPath path (j + n)) v) := by
  intro xs
  induction xs with
  | nil => intro j n; simp [lowercaseItems]
  | cons x rest ih =>
    intro j n
    cases n with
    | zero => simp [lowercaseItems]
    | succ m =>
      simp only [lowercaseItems, List.getElem?_cons_succ, ih (j + 1) m]
      have harith : j + 1 + m = j + (m + 1) := by omega
      rw [harith]

theorem lowercase_getPath (skip : List String) :
    ∀ (steps : List PStep) (data : Json) (base : String) (s : String),
    getPath data steps = some (.s s) →
    getPath (_lowercase_record skip base data) steps
      = some (.s (if anySkipped skip base steps then s else pyLower s)) := by
  intro steps
  induction steps with
  | nil =>
    intro data base s h
    simp only [getPath, Option.some.injEq] at h
    subst h
    by_cases hc : base ∈ skip <;>
      simp [getPath, _lowercase_record, anySkipped, hc]
  | cons st rest ih =>
    intro data base s h
    cases data with
    | null => simp [getPath] at h
    | b v => simp [getPath] at h
    | i v => simp [getPath] at h
    | s v => simp [getPath] at h
    | obj kvs =>
      cases st with
      | idx n => simp [getPath] at h
      | key k =>
        cases hv : kvs.lookup k with
        | none => rw [getPath, hv] at h; exact absurd h (by simp)
        | some v =>
          have hrec : getPath v rest = some (.s s) := by
            rw [getPath, hv] at h; exact h
          by_cases hc : base ∈ skip
          · have hout : _lowercase_record skip base (.obj kvs) = .obj kvs := by
              simp [_lowercase_record, hc]
            have hany : anySkipped skip base (PStep.key k :: rest) = true := by
              simp [anySkipped, hc]
            rw [hout, hany, getPath, hv]
            exact hrec
          · have hout : _lowercase_record skip base (.obj kvs)
                = .obj (lowercaseFields skip base kvs) := by
              simp [_lowercase_record, hc]
            have hany : anySkipped skip base (PStep.key k :: rest)
                = anySkipped skip (childPath base k) rest := by
              simp [anySkipped, hc, stepPath]
            rw [hout, hany, getPath, lookup_lowercaseFields, hv]
            exact ih v (childPath base k) s hrec
    | arr xs =>
      cases st with
      | key k => simp [getPath] at h
      | idx n =>
        cases hv : xs[n]? with
        | none => rw [getPath, hv] at h; exact absurd h (by simp)
        | some v =>
          have hrec : getPath v rest = some (.s s) := by
            rw [getPath, hv] at h; exact h
          by_cases hc : base ∈ skip
          · have hout : _lowercase_record skip base (.arr xs) = .arr xs := by
              simp [_lowercase_record, hc]
            have hany : anySkipped skip base (PStep.idx n :: rest) = true := by
              simp [anySkipped, hc]
            rw [hout, hany, getPath, hv]
            exact hrec
          · have hout : _lowercase_record skip base (.arr xs)
                = .arr (lowercaseItems skip base 0 xs) := by
              simp [_lowercase_record, hc]
            have hany : anySkipped skip base (PStep.idx n :: rest)
                = anySkipped skip (idxPath base n) rest := by
              simp [anySkipped, hc, stepPath]
            rw [hout, hany, getPath, getElem?_lowercaseItems, hv]
            simp only [Nat.zero_add, Option.map_some]
            exact ih v (idxPath base n) s hrec

theorem anySkipped_iff (skip : List String) :
    ∀ (steps : List PStep) (base : String),
    anySkipped skip base steps = true
      ↔ ∃ n, n ≤ steps.length
          ∧ skip.contains (pathString base (steps.take n)) = true := by
  intro steps
  induction steps with
  | nil =>
    intro base
    constructor
    · intro h
      exact ⟨0, Nat.le_refl 0, h⟩
    · rintro ⟨n, _, hmem⟩
      rw [List.take_nil] at hmem
      simp only [pathString] at hmem
      exact hmem
  | cons st rest ih =>
    intro base
    constructor
    · intro h
      rcases Bool.or_eq_true_iff.mp h with hc | hr
      · exact ⟨0, Nat.zero_le _, by simpa [pathString] using hc⟩
      · obtain ⟨m, hm, hmem⟩ := (ih (stepPath base st)).mp hr
        refine ⟨m + 1, by simpa using Nat.succ_le_succ hm, ?_⟩
        simpa [pathString] using hmem
    · rintro ⟨n, hn, hmem⟩
      cases n with
      | zero =>
        simp only [List.take_zero, pathString] at hmem
        simp only [anySkipped, Bool.or_eq_true]
        exact Or.inl hmem
      | succ m =>
        have hm : m ≤ rest.length := by simpa using hn
        have : anySkipped skip (stepPath base st) rest = true :=
          (ih (stepPath base st)).mpr ⟨m, hm, by simpa [pathString] using hmem⟩
        simp [anySkipped, this]

/-- C1: a node whose accumulated path lies in the skip set is returned
unchanged (no recursion beneath it); a string leaf is lowercased if and
only if no ancestor-or-self accumulated path of that leaf lies in the skip
set, where mapping access appends ".key" (bare key at the root), sequence
access appends "[index]", and the root path is the given base. -/
theorem claim_C1 :
    (∀ (skip : List String) (p : String) (data : Json),
        skip.contains p = true → _lowercase_record skip p data = data)
    ∧ (∀ (skip : List String) (base : String) (steps : List PStep),
        anySkipped skip base steps = true
          ↔ ∃ n, n ≤ steps.length
              ∧ skip.contains (pathString base (steps.take n)) = true)
    ∧ (∀ (skip : List String) (base : String) (data : Json)
          (steps : List PStep) (s : String),
        getPath data steps = some (.s s) → anySkipped skip base steps = true →
          getPath (_lowercase_record skip base data) steps = some (.s s))
    ∧ (∀ (skip : List String) (base : String) (data : Json)
          (steps : List PStep) (s : String),
        getPath data steps = some (.s s) → anySkipped skip base steps = false →
          getPath (_lowercase_record skip base data) steps
            = some (.s (pyLower s))) := by
  refine ⟨?_, ?_, ?_, ?_⟩
  · intro skip p data h
    have hm : p ∈ skip := by simpa using h
    cases data <;> simp [_lowercase_record, hm]
  · intro skip base steps
    exact anySkipped_iff skip steps base
  · intro skip base data steps s h ha
    rw [lowercase_getPath skip steps data base s h, ha]
    simp
  · intro skip base data steps s h ha
    rw [lowercase_getPath skip steps data base s h, ha]
    simp

/-- Witness for C1 on the record `{full_text: "Abc", article_title: "Abc"}`
with skip set ["full_text"]: the skipped leaf keeps its case, the other
leaf is lowercased, and a skipped node is returned unchanged. -/
theorem claim_C1_witness :
    _lowercase_record ["full_text"] "full_text" (.s "Abc") = .s "Abc"
    ∧ getPath (_lowercase_record ["full_text"] ""
          (.obj [("full_text", .s "Abc"), ("article_title", .s "Abc")]))
        [.key "full_text"] = some (.s "Abc")
    ∧ getPath (_lowercase_record ["full_text"] ""
          (.obj [("full_text", .s "Abc"), ("article_title", .s "Abc")]))
        [.key "article_title"] = some (.s "abc") := by
  refine ⟨claim_C1.1 ["full_text"] "full_text" (.s "Abc") (by decide), ?_, ?_⟩
  · exact claim_C1.2.2.1 ["full_text"] ""
      (.obj [("full_text", .s "Abc"), ("article_title", .s "Abc")])
      [.key "full_text"] "Abc" rfl (by decide)
  · exact claim_C1.2.2.2 ["full_text"] ""
      (.obj [("full_text", .s "Abc"), ("article_title", .s "Abc")])
      [.key "article_title"] "Abc" rfl (by decide)

theorem SameShape_refl : ∀ j, SameShape j j := by
  intro j
  induction j using Json.inductionOn with
  | hnull => exact .null
  | hb v => exact .boolv v
  | hi v => exact .intv v
  | hs v => exact .strv v v (Or.inl rfl)
  | harr xs ih =>
    exact .arrv xs xs rfl (fun n h1 _ => ih _ (List.getElem_mem h1))
  | hobj kvs ih =>
    exact .objv kvs kvs rfl (fun n h1 _ => rfl)
      (fun n h1 _ => ih _ (List.getElem_mem h1))

theorem length_lowercaseItems (skip : List String) (path : String) :
    ∀ (xs : List Json) (j : Nat),
    (lowercaseItems skip path j xs).length = xs.length := by
  intro xs
  induction xs with
  | nil => intro j; rfl
  | cons x rest ih => intro j; simp [lowercaseItems, ih]

theorem length_lowercaseFields (skip : List String) (path : String) :
    ∀ kvs : List (String × Json),
    (lowercaseFields skip path kvs).length = kvs.length := by
  intro kvs
  induction kvs with
  | nil => rfl
  | cons kv rest ih =>
    obtain ⟨k, v⟩ := kv
    simp [lowercaseFields, ih]

theorem getElem?_lowercaseFields (skip : List String) (path : String) :
    ∀ (kvs : List (String × Json)) (n : Nat),
    (lowercaseFields skip path kvs)[n]?
      = (kvs[n]?).map (fun kv =>
          (kv.1, _lowercase_record skip (childPath path kv.1) kv.2)) := by
  intro kvs
  induction kvs with
  | nil => intro n; simp [lowercaseFields]
  | cons kv rest ih =>
    obtain ⟨k, v⟩ := kv
    intro n
    cases n with
    | zero => simp [lowercaseFields]
    | succ m => simp [lowercaseFields, ih]

/-- C10: the case normalizer preserves structure: for every skip set, path
and value, the output has the same mapping keys in the same order, the same
sequence lengths, equal non-string leaves, and each string leaf either
unchanged or lowercased. -/
theorem claim_C10 : ∀ (skip : List String) (path : String) (data : Json),
    SameShape data (_lowercase_record skip path data) := by
  intro skip
  have main : ∀ data path, SameShape data (_lowercase_record skip path data) := by
    intro data
    induction data using Json.inductionOn with
    | hnull => intro path; exact .null
    | hb v => intro path; exact .boolv v
    | hi v => intro path; exact .intv v
    | hs v =>
      intro path
      by_cases hc : path ∈ skip
      · rw [show _lowercase_record skip path (.s v) = .s v by
          simp [_lowercase_record, hc]]
        exact .strv v v (Or.inl rfl)
      · rw [show _lowercase_record skip path (.s v) = .s (pyLower v) by
          simp [_lowercase_record, hc]]
        exact .strv v (pyLower v) (Or.inr rfl)
    | harr xs ih =>
      intro path
      by_cases hc : path ∈ skip
      · rw [show _lowercase_record skip path (.arr xs) = .arr xs by
          simp [_lowercase_record, hc]]
        exact SameShape_refl _
      · rw [show _lowercase_record skip path (.arr xs)
            = .arr (lowercaseItems skip path 0 xs) by
          simp [_lowercase_record, hc]]
        refine .arrv _ _ (by rw [length_lowercaseItems]) ?_
        intro n h1 h2
        have hx : (lowercaseItems skip path 0 xs)[n]
            = _lowercase_record skip (idxPath path n) xs[n] := by
          have h3 := getElem?_lowercaseItems skip path xs 0 n
          rw [List.getElem?_eq_getElem h2, List.getElem?_eq_getElem h1] at h3
          simpa using h3
        rw [hx]
        exact ih _ (List.getElem_mem h1) (idxPath path n)
    | hobj kvs ih =>
      intro path
      by_cases hc : path ∈ skip
      · rw [show _lowercase_record skip path (.obj kvs) = .obj kvs by
          simp [_lowercase_record, hc]]
        exact SameShape_refl _
      · rw [show _lowercase_record skip path (.obj kvs)
            = .obj (lowercaseFields skip path kvs) by
          simp [_lowercase_record, hc]]
        have hx : ∀ n (h1 : n < kvs.length)
            (h2 : n < (lowercaseFields skip path kvs).length),
            (lowercaseFields skip path kvs)[n]
              = ((kvs[n]).1,
                 _lowercase_record skip (childPath path (kvs[n]).1) (kvs[n]).2) := by
          intro n h1 h2
          have h3 := getElem?_lowercaseFields skip path kvs n
          rw [List.getElem?_eq_getElem h2, List.getElem?_eq_getElem h1] at h3
          simpa using h3
        refine .objv _ _ (by rw [length_lowercaseFields]) ?_ ?_
        · intro n h1 h2
          rw [hx n h1 h2]
        · intro n h1 h2
          rw [hx n h1 h2]
          exact ih _ (List.getElem_mem h1) (childPath path (kvs[n]).1)
  intro path data
  exact main data path

/-! ### Claim C4: e-mail resolution priority -/

theorem lookup_eq_none_keys : ∀ (kvs : List (String × Json)) (k : String),
    k ∉ kvs.map Prod.fst → kvs.lookup k = none := by
  intro kvs
  induction kvs with
  | nil => intro k _; rfl
  | cons kv rest ih =>
    obtain ⟨k0, v0⟩ := kv
    intro k h
    rw [List.map_cons, List.mem_cons] at h
    push_neg at h
    have hb : (k == k0) = false := by simp [h.1]
    simp [List.lookup, hb, ih k h.2]

theorem lookup_pruneFields : ∀ (kvs : List (String × Json)) (k : String),
    (kvs.map Prod.fst).Nodup →
    (pruneFields kvs).lookup k
      = (kvs.lookup k).bind (fun v =>
          if removable (_prune v) then none else some (_prune v)) := by
  intro kvs
  induction kvs with
  | nil => intro k _; rfl
  | cons kv rest ih =>
    obtain ⟨k0, v0⟩ := kv
    intro k h
    rw [List.map_cons, List.nodup_cons] at h
    obtain ⟨hk0, hrest⟩ := h
    by_cases hkk : k = k0
    · subst hkk
      by_cases hr : removable (_prune v0)
      · rw [show pruneFields ((k, v0) :: rest) = pruneFields rest by
          simp [pruneFields, hr]]
        rw [show List.lookup k ((k, v0) :: rest) = some v0 by simp [List.lookup]]
        rw [ih k hrest, lookup_eq_none_keys rest k hk0]
        simp [hr]
      · rw [show pruneFields ((k, v0) :: rest)
            = (k, _prune v0) :: pruneFields rest by simp [pruneFields, hr]]
        simp [List.lookup, hr]
    · have hb : (k == k0) = false := by simp [hkk]
      by_cases hr : removable (_prune v0)
      · rw [show pruneFields ((k0, v0) :: rest) = pruneFields rest by
          simp [pruneFields, hr]]
        rw [show List.lookup k ((k0, v0) :: rest) = List.lookup k rest by
          simp [List.lookup, hb]]
        exact ih k hrest
      · rw [show pruneFields ((k0, v0) :: rest)
            = (k0, _prune v0) :: pruneFields rest by simp [pruneFields, hr]]
        simp only [List.lookup, hb]
        exact ih k hrest

theorem jsonLookup_prune_obj (L : List (String × Json)) (k : String)
    (h : (L.map Prod.fst).Nodup) :
    jsonLookup (_prune (.obj L)) k
      = (L.lookup k).bind (fun v =>
          if removable (_prune v) then none else some (_prune v)) := by
  simp only [jsonLookup, _prune]
  exact lookup_pruneFields L k h

theorem prune_jOptStr_entry (o : Option String) :
    (some (jOptStr o)).bind (fun v =>
        if removable (_prune v) then none else some (_prune v))
      = match o with
        | some e => some (Json.s e)
        | none => none := by
  cases o <;> simp [jOptStr, _prune, removable]

theorem lookup10_email (v1 v2 v3 v4 v5 v6 v7 v8 v9 v10 : Json) :
    ([("given", v1), ("surname", v2), ("email", v3), ("email_from_note", v4),
      ("orcid", v5), ("roles", v6), ("affiliations", v7),
      ("affiliation_flat", v8), ("nota_author", v9), ("author_flat", v10)]
      : List (String × Json)).lookup "email" = some v3 := rfl

theorem lookup10_efn (v1 v2 v3 v4 v5 v6 v7 v8 v9 v10 : Json) :
    ([("given", v1), ("surname", v2), ("email", v3), ("email_from_note", v4),
      ("orcid", v5), ("roles", v6), ("affiliations", v7),
      ("affiliation_flat", v8), ("nota_author", v9), ("author_flat", v10)]
      : List (String × Json)).lookup "email_from_note" = some v4 := rfl

theorem buildContrib_email_fields (aff_map fn_map : List (String × Json))
    (c : Elem) :
    jsonLookup (buildContrib aff_map fn_map c) "email"
      = (match pyOr (pyOr (explicitEmailOf c)
              (emailFromNotes (notaAuthorOf fn_map c))) none with
         | some e => some (Json.s e)
         | none => none)
    ∧ jsonLookup (buildContrib aff_map fn_map c) "email_from_note"
      = (match pyOr (emailFromNotes (notaAuthorOf fn_map c)) none with
         | some e => some (Json.s e)
         | none => none) := by
  constructor
  · simp only [buildContrib]
    rw [jsonLookup_prune_obj]
    · rw [lookup10_email]
      exact prune_jOptStr_entry _
    · simp only [List.map_cons, List.map_nil]
      decide
  · simp only [buildContrib]
    rw [jsonLookup_prune_obj]
    · rw [lookup10_efn]
      exact prune_jOptStr_entry _
    · simp only [List.map_cons, List.map_nil]
      decide

theorem txt_ne_empty : ∀ (o : Option Elem) (e : String),
    _txt o = some e → e ≠ "" := by
  intro o e h
  cases o with
  | none => simp [_txt] at h
  | some el =>
    simp only [_txt] at h
    by_cases hc : _clean_text el = ""
    · simp [hc] at h
    · rw [if_neg hc] at h
      cases h
      exact hc

theorem emailFromNotes_ne_empty : ∀ (notes : List Json) (e : String),
    emailFromNotes notes = some e → e ≠ "" := by
  intro notes
  induction notes with
  | nil => intro e h; simp [emailFromNotes] at h
  | cons note rest ih =>
    intro e h
    rw [emailFromNotes] at h
    cases hc : _extract_email_from_text (jsonGetStr note "text") with
    | none => rw [hc] at h; exact ih e h
    | some cand =>
      rw [hc] at h
      by_cases hcc : cand = ""
      · subst hcc
        simp at h
        exact ih e h
      · simp [hcc] at h
        exact h ▸ hcc

/-- C4: if the contributor has an explicit email element, the author's
"email" field carries exactly that value (the note-derived one at most in
"email_from_note"); with no explicit email the "email" field carries the
first email-pattern match found across the resolved notes' texts; with
neither, both fields are absent from the pruned author record. -/
theorem claim_C4 : ∀ (aff_map fn_map : List (String × Json)) (c : Elem),
    (∀ e, explicitEmailOf c = some e →
        jsonLookup (buildContrib aff_map fn_map c) "email" = some (.s e))
    ∧ (∀ e2, emailFromNotes (notaAuthorOf fn_map c) = some e2 →
        jsonLookup (buildContrib aff_map fn_map c) "email_from_note"
          = some (.s e2))
    ∧ (explicitEmailOf c = none →
        ∀ e2, emailFromNotes (notaAuthorOf fn_map c) = some e2 →
          jsonLookup (buildContrib aff_map fn_map c) "email" = some (.s e2))
    ∧ (explicitEmailOf c = none → emailFromNotes (notaAuthorOf fn_map c) = none →
        jsonLookup (buildContrib aff_map fn_map c) "email" = none
        ∧ jsonLookup (buildContrib aff_map fn_map c) "email_from_note" = none) := by
  intro aff_map fn_map c
  obtain ⟨hemail, hefn⟩ := buildContrib_email_fields aff_map fn_map c
  refine ⟨?_, ?_, ?_, ?_⟩
  · intro e he
    have hne : e ≠ "" := txt_ne_empty _ e he
    rw [hemail, he]
    simp [pyOr, tOpt, hne]
  · intro e2 he2
    have hne : e2 ≠ "" := emailFromNotes_ne_empty _ e2 he2
    rw [hefn, he2]
    simp [pyOr, tOpt, hne]
  · intro hno e2 he2
    have hne : e2 ≠ "" := emailFromNotes_ne_empty _ e2 he2
    rw [hemail, hno, he2]
    simp [pyOr, tOpt, hne]
  · intro hno hno2
    rw [hemail, hefn, hno, hno2]
    simp [pyOr, tOpt]

/-- Witness for C4: with explicit email "x@y.com" and a resolved note whose
text contains "n@z.org", the primary field is the explicit address and the
note-derived one sits only in email_from_note. -/
theorem claim_C4_witness :
    jsonLookup (buildContrib [] fnMapC4 contribC4) "email" = some (.s "x@y.com")
    ∧ jsonLookup (buildContrib [] fnMapC4 contribC4) "email_from_note"
        = some (.s "n@z.org") := by
  have h := claim_C4 [] fnMapC4 contribC4
  exact ⟨h.1 "x@y.com" rfl, h.2.1 "n@z.org" rfl⟩
